import Mathlib

/-!
Verification of the email-assistant workflow policy (triage routing,
human-in-the-loop interrupt handling, preference memory) against its
natural-language specification.

The embedding models the repository's own code:
* `src/src/email_assistant/agent_hitl.py` — HITL triage router, triage
  interrupt handler, tool-call interrupt handler, `should_continue`,
  `get_memory` / `update_memory`;
* `src/src/email_assistant/agent.py` — non-HITL triage router and
  `should_continue`;
* `src/src/email_assistant/main.py` — resume endpoint guards and
  `_get_allowed_actions`;
* `src/src/email_assistant/utils.py` — `parse_email`,
  `format_email_markdown`;
* `src/src/email_assistant/agent_tools.py` — the stub `write_email` tool.

LLM calls (classification, preference re-summarisation) are external
collaborators: their outputs enter the model as parameters.  Memory
updates performed through the LLM summariser are recorded as effects
naming the namespace they target; the key-value store itself is modelled
explicitly for the `get_memory` write-on-read contract.
-/

/-- Tool arguments: a JSON-object-like dictionary of string fields. -/
abbrev Args := List (String × String)

/-- Look up a key in an argument dictionary, defaulting to the empty
string (Python `dict.get(key, "")`). -/
def dictGet (d : Args) (k : String) : String :=
  ((d.find? (fun e => e.1 == k)).map (fun e => e.2)).getD ""

/-- A tool call proposed by the assistant: name, arguments and the id
that correlates it with its eventual tool-result message. -/
structure ToolCall where
  name : String
  args : Args
  id : String
deriving DecidableEq, Repr

/-- A conversation message (role, content, optional tool-call list,
optional tool-call-id linkage for tool-result messages). -/
structure Message where
  role : String
  content : String
  tool_calls : List ToolCall := []
  tool_call_id : Option String := none
deriving DecidableEq, Repr

/-- A memory namespace, e.g. `("email_assistant", "triage_preferences")`. -/
abbrev NS := String × String

/-- The persistent key-value store keyed by (namespace, key). -/
structure Store where
  entries : List (NS × String × String)
deriving DecidableEq, Repr

/-- Python `store.get(namespace, key)`: the stored value, or `none` if absent. -/
def Store.get (s : Store) (ns : NS) (key : String) : Option String :=
  ((s.entries.find? (fun e => e.1 == ns && e.2.1 == key)).map (fun e => e.2.2))

/-- Python `store.put(namespace, key, value)`: overwrite (last-writer-wins). -/
def Store.put (s : Store) (ns : NS) (key value : String) : Store :=
  ⟨(ns, key, value) :: s.entries.filter (fun e => !(e.1 == ns && e.2.1 == key))⟩

/-- Function `get_memory` (agent_hitl.py): return the stored profile under
(namespace, "user_preferences"), or store the default and return it
(write-on-read).  Returns the profile together with the possibly
updated store. -/
def get_memory (store : Store) (ns : NS) (default_content : String) :
    String × Store :=
  match store.get ns "user_preferences" with
  | some v => (v, store)
  | none => (default_content, store.put ns "user_preferences" default_content)

/-- The graph state carried between nodes (schemas.py `State`):
the email input dictionary, the triage classification and the message
list. -/
structure AgentState where
  email_input : Args
  classification_decision : String := ""
  messages : List Message := []
deriving DecidableEq, Repr

/-- A state update returned by a node via `Command(update=...)`: only the
fields the node actually writes are present. -/
structure StateUpdate where
  messages : Option (List Message) := none
  classification_decision : Option String := none
deriving DecidableEq, Repr

/-- Apply a node's update to the state: new messages are appended by the
`add_messages` reducer and a present classification overwrites. -/
def applyUpdate (state : AgentState) (u : StateUpdate) : AgentState :=
  { state with
    messages := state.messages ++ u.messages.getD []
    classification_decision :=
      u.classification_decision.getD state.classification_decision }

/-- Function `parse_email` (utils.py): split the email dictionary into
(author, to, subject, email_thread), each defaulting to the empty
string. -/
def parse_email (email_input : Args) : String × String × String × String :=
  (dictGet email_input "author", dictGet email_input "to",
   dictGet email_input "subject", dictGet email_input "email_thread")

/-- Function `format_email_markdown` (utils.py). -/
def format_email_markdown (subject author recipient email_thread : String) :
    String :=
  "**Subject**: " ++ subject ++ "\n**From**: " ++ author ++ "\n**To**: "
    ++ recipient ++ "\n\n" ++ email_thread ++ "\n\n---\n"

/-- Observable side effects of a handler run: tool executions (with the
arguments actually passed) and preference-memory updates (`update_memory`
calls, recorded by target namespace; the new profile text is produced by
an external LLM call). -/
inductive Effect where
  | toolExec (name : String) (args : Args)
  | memUpdate (ns : NS)
deriving DecidableEq, Repr

/-- A human verdict resuming an interrupt.  `rtype` is the verdict type
string; `feedback` is the payload of a "response" verdict
(`response["args"]`); `edited_args` the replacement arguments of an
"edit" verdict (`response["args"]["args"]`). -/
structure HumanResponse where
  rtype : String
  feedback : String := ""
  edited_args : Args := []
deriving DecidableEq, Repr

/-- The capability set of a review request (`config` dictionary of an
interrupt request). -/
structure ReviewConfig where
  allow_ignore : Bool
  allow_respond : Bool
  allow_edit : Bool
  allow_accept : Bool
deriving DecidableEq, Repr

/-- The per-tool-kind capability sets built in `interrupt_handler`
(agent_hitl.py lines 313-336). -/
def hitl_tool_config (name : String) : Except String ReviewConfig :=
  if name == "write_email" then
    .ok { allow_ignore := true, allow_respond := true,
          allow_edit := true, allow_accept := true }
  else if name == "schedule_meeting" then
    .ok { allow_ignore := true, allow_respond := true,
          allow_edit := true, allow_accept := true }
  else if name == "Question" then
    .ok { allow_ignore := true, allow_respond := true,
          allow_edit := false, allow_accept := false }
  else
    .error ("Unexpected HITL tool: " ++ name)

/-- The capability set of the notify-path review request built in
`triage_interrupt_handler` (agent_hitl.py lines 198-203). -/
def triage_notify_config : ReviewConfig :=
  { allow_ignore := true, allow_respond := true,
    allow_edit := false, allow_accept := false }

/-- Function `_get_allowed_actions` (main.py): project a capability set to the
list of allowed verdict names, in the order accept, edit, ignore,
respond. -/
def get_allowed_actions (config : ReviewConfig) : List String :=
  (if config.allow_accept then ["accept"] else [])
    ++ (if config.allow_edit then ["edit"] else [])
    ++ (if config.allow_ignore then ["ignore"] else [])
    ++ (if config.allow_respond then ["respond"] else [])

/-- The tool names that require human approval (agent_hitl.py line 290). -/
def hitl_tools : List String := ["write_email", "schedule_meeting", "Question"]

/-- The edit correction step (agent_hitl.py lines 367-381): build a copy
of the assistant message whose tool-call list drops the call with
`current_id` and appends the edited version, leaving every other field
of the message unchanged. -/
def editToolCalls (ai_message : Message) (tcName : String)
    (edited_args : Args) (current_id : String) : Message :=
  { ai_message with
    tool_calls :=
      ai_message.tool_calls.filter (fun c => !(c.id == current_id))
        ++ [{ name := tcName, args := edited_args, id := current_id }] }

/-- A synthetic tool-result message. -/
def toolMsg (content : String) (tcid : String) : Message :=
  { role := "tool", content := content, tool_call_id := some tcid }

/-- The triage-preferences namespace. -/
def triageNS : NS := ("email_assistant", "triage_preferences")

/-- The response-preferences namespace. -/
def responseNS : NS := ("email_assistant", "response_preferences")

/-- The calendar-preferences namespace. -/
def calNS : NS := ("email_assistant", "cal_preferences")

/-- The body of `interrupt_handler`'s loop over the last assistant
message's tool calls (agent_hitl.py lines 287-475).  `toolExec` is the
`tools_by_name[...].invoke` dispatch (the tool implementations live in a
package not present in this snapshot, so execution is a parameter);
`ai_message` is the last message of the state, whose tool calls are
being processed; `responses` is the stream of human verdicts consumed by
successive `interrupt(...)` calls, one per reviewable tool call.
Accumulates the `result` messages, the `goto` target and the effect
trace; a `raise ValueError` is an `Except.error`. -/
def interruptLoop (toolExec : String → Args → String) (ai_message : Message)
    (tcs : List ToolCall) (responses : List HumanResponse)
    (result : List Message) (goto : String) (effects : List Effect) :
    Except String (List Message × String × List Effect) :=
  match tcs with
  | [] => .ok (result, goto, effects)
  | tc :: rest =>
    if !(hitl_tools.contains tc.name) then
      -- Auto-execute non-HITL tools without interruption.
      interruptLoop toolExec ai_message rest responses
        (result ++ [toolMsg (toolExec tc.name tc.args) tc.id]) goto
        (effects ++ [.toolExec tc.name tc.args])
    else
      match responses with
      | [] => .error "awaiting human response"
      | response :: restResponses =>
        match hitl_tool_config tc.name with
        | .error e => .error e
        | .ok _config =>
          if response.rtype == "accept" then
            -- Execute tool with original arguments.
            interruptLoop toolExec ai_message rest restResponses
              (result ++ [toolMsg (toolExec tc.name tc.args) tc.id]) goto
              (effects ++ [.toolExec tc.name tc.args])
          else if response.rtype == "edit" then
            -- Execute tool with edited arguments, after replacing the
            -- tool call in a copy of the assistant message.
            let edited_args := response.edited_args
            let current_id := tc.id
            let newMsg := editToolCalls ai_message tc.name edited_args current_id
            if tc.name == "write_email" then
              interruptLoop toolExec ai_message rest restResponses
                (result ++ [newMsg,
                  toolMsg (toolExec tc.name edited_args) current_id]) goto
                (effects ++ [.toolExec tc.name edited_args, .memUpdate responseNS])
            else if tc.name == "schedule_meeting" then
              interruptLoop toolExec ai_message rest restResponses
                (result ++ [newMsg,
                  toolMsg (toolExec tc.name edited_args) current_id]) goto
                (effects ++ [.toolExec tc.name edited_args, .memUpdate calNS])
            else
              .error ("Invalid tool call: " ++ tc.name)
          else if response.rtype == "ignore" then
            -- Do not execute; append a refusal note, end the workflow,
            -- update triage preferences.  (The loop itself continues to
            -- the remaining tool calls of this assistant turn.)
            if tc.name == "write_email" then
              interruptLoop toolExec ai_message rest restResponses
                (result ++ [toolMsg
                  "User ignored this email draft. Ignore this email and end the workflow." tc.id])
                "__end__" (effects ++ [.memUpdate triageNS])
            else if tc.name == "schedule_meeting" then
              interruptLoop toolExec ai_message rest restResponses
                (result ++ [toolMsg
                  "User ignored this calendar meeting draft. Ignore this email and end the workflow." tc.id])
                "__end__" (effects ++ [.memUpdate triageNS])
            else if tc.name == "Question" then
              interruptLoop toolExec ai_message rest restResponses
                (result ++ [toolMsg
                  "User ignored this question. Ignore this email and end the workflow." tc.id])
                "__end__" (effects ++ [.memUpdate triageNS])
            else
              .error ("Invalid tool call: " ++ tc.name)
          else if response.rtype == "response" then
            -- Do not execute; carry the feedback in a synthetic result.
            let user_feedback := response.feedback
            if tc.name == "write_email" then
              interruptLoop toolExec ai_message rest restResponses
                (result ++ [toolMsg
                  ("User gave feedback, which can we incorporate into the email. Feedback: "
                    ++ user_feedback) tc.id])
                goto (effects ++ [.memUpdate responseNS])
            else if tc.name == "schedule_meeting" then
              interruptLoop toolExec ai_message rest restResponses
                (result ++ [toolMsg
                  ("User gave feedback, which can we incorporate into the meeting request. Feedback: "
                    ++ user_feedback) tc.id])
                goto (effects ++ [.memUpdate calNS])
            else if tc.name == "Question" then
              interruptLoop toolExec ai_message rest restResponses
                (result ++ [toolMsg
                  ("User answered the question, which can we can use for any follow up actions. Feedback: "
                    ++ user_feedback) tc.id])
                goto effects
            else
              .error ("Invalid tool call: " ++ tc.name)
          else
            .error ("Invalid response type: " ++ response.rtype)

/-- Function `interrupt_handler` (agent_hitl.py lines 273-479): process each tool
call of the last assistant message under the human verdict stream and
return `(goto, state update, effects)`.  The update writes only the
`messages` field; the default goto is `"llm_call"`. -/
def interrupt_handler (toolExec : String → Args → String)
    (state : AgentState) (responses : List HumanResponse) :
    Except String (String × StateUpdate × List Effect) :=
  match state.messages.getLast? with
  | none => .error "state has no messages"
  | some last =>
    (interruptLoop toolExec last last.tool_calls responses [] "llm_call" []).map
      (fun out => (out.2.1,
        { messages := some out.1, classification_decision := none }, out.2.2))

/-- Function `triage_interrupt_handler` (agent_hitl.py lines 174-244): handle the
human verdict on a notify classification.  "response" routes to the
response agent, "ignore" ends the run, both after a triage-preferences
update; any other verdict type is a fatal error.  The state update
carries the new messages and re-asserts the original classification. -/
def triage_interrupt_handler (state : AgentState) (response : HumanResponse) :
    Except String (String × StateUpdate × List Effect) :=
  match parse_email state.email_input with
  | (author, recipient, subject, email_thread) =>
    let email_markdown := format_email_markdown subject author recipient email_thread
    let messages : List Message :=
      [{ role := "user",
         content := "Email to notify user about: " ++ email_markdown }]
    -- The emitted review request carries `triage_notify_config`.
    if response.rtype == "response" then
      let user_input := response.feedback
      let messages := messages ++
        [{ role := "user",
           content := "User wants to reply to the email. Use this feedback to respond: "
             ++ user_input }]
      .ok ("response_agent",
        { messages := some messages,
          classification_decision := some state.classification_decision },
        [.memUpdate triageNS])
    else if response.rtype == "ignore" then
      let messages := messages ++
        [{ role := "user",
           content := "The user decided to ignore the email even though it was classified as notify. Update triage preferences to capture this." }]
      .ok ("__end__",
        { messages := some messages,
          classification_decision := some state.classification_decision },
        [.memUpdate triageNS])
    else
      .error ("Invalid response type: " ++ response.rtype)

namespace Hitl

/-- Function `triage_router` (agent_hitl.py lines 102-171).  The classification is
the structured LLM output, supplied as a parameter along with the
default triage-instructions text (the prompts module is not part of this
snapshot; its content is immaterial here).  The router first reads the
triage-preferences profile through `get_memory` (which may seed the
store), then routes: respond enters the response agent with a seed
message, ignore ends the run, notify goes to the triage interrupt
handler; anything else is a fatal error.  Returns (goto, update,
resulting store). -/
def triage_router (default_triage_instructions : String)
    (classification : String) (state : AgentState) (store : Store) :
    Except String (String × StateUpdate × Store) :=
  match parse_email state.email_input with
  | (author, recipient, subject, email_thread) =>
    let gm := get_memory store ("email_assistant", "triage_preferences")
      default_triage_instructions
    let store1 := gm.2
    let email_markdown := format_email_markdown subject author recipient email_thread
    let seed : Message :=
      { role := "user", content := "Respond to the email: " ++ email_markdown }
    if classification == "respond" then
      .ok ("response_agent",
        { classification_decision := some classification,
          messages := some [seed] },
        store1)
    else if classification == "ignore" then
      .ok ("__end__",
        { classification_decision := some classification }, store1)
    else if classification == "notify" then
      .ok ("triage_interrupt_handler",
        { classification_decision := some classification }, store1)
    else
      .error ("Invalid classification: " ++ classification)

/-- Function `should_continue` (agent_hitl.py lines 482-492): route to the
interrupt handler or end.  The Python loop returns on its first
iteration, so only the first tool call of the last message is
inspected. -/
def should_continue (last_message : Message) : String :=
  match last_message.tool_calls with
  | [] => "__end__"
  | tc :: _ => if tc.name == "Done" then "__end__" else "interrupt_handler"

end Hitl

namespace Agent

/-- Function `triage_router` (agent.py lines 26-67), the non-HITL variant: no
store access at all; respond enters the response agent, ignore and
notify both end the run. -/
def triage_router (classification : String) (state : AgentState) :
    Except String (String × StateUpdate) :=
  match parse_email state.email_input with
  | (author, recipient, subject, email_thread) =>
    let seed : Message :=
      { role := "user",
        content := "Respond to the email: \n\n"
          ++ format_email_markdown subject author recipient email_thread }
    if classification == "respond" then
      .ok ("response_agent",
        { classification_decision := some classification,
          messages := some [seed] })
    else if classification == "ignore" then
      .ok ("__end__", { classification_decision := some classification })
    else if classification == "notify" then
      .ok ("__end__", { classification_decision := some classification })
    else
      .error ("Invalid classification: " ++ classification)

/-- Function `should_continue` (agent.py lines 104-117): end when any tool call
of the last message is named "Done", otherwise go to the tool handler;
end when there are no tool calls. -/
def should_continue (last_message : Message) : String :=
  if last_message.tool_calls.isEmpty then "__end__"
  else if last_message.tool_calls.any (fun tc => tc.name == "Done") then "__end__"
  else "tool_handler"

end Agent

/-- A persisted workflow thread snapshot as seen through
`get_state(config)`: `values` is the saved state (falsy when empty) and
`next` the pending nodes (empty when the workflow has completed). -/
structure ThreadSnapshot where
  values : List (String × String)
  next : List String
deriving DecidableEq, Repr

/-- The checkpoint map from thread id to snapshot. -/
abbrev Threads := List (String × ThreadSnapshot)

/-- Model of `compiled_email_assistant_hitl.get_state` for a thread id. -/
def getThreadState (threads : Threads) (thread_id : String) :
    Option ThreadSnapshot :=
  ((threads.find? (fun e => e.1 == thread_id)).map (fun e => e.2))

/-- An HTTP error (`HTTPException`): status code and detail. -/
structure HErr where
  status_code : Nat
  detail : String
deriving DecidableEq, Repr

/-- The resume branch of `process_email_hitl_endpoint` (main.py lines
184-206): before any workflow step runs, a missing thread, a thread with
no saved state, or a thread whose workflow already completed is rejected
with a 400 error.  Only past those guards is the workflow advanced
(advancement itself is the graph runtime, passed as `advance`).  Returns
the outcome together with the (possibly updated) thread map, so the
error paths demonstrably leave every thread untouched. -/
def process_email_hitl_resume
    (advance : ThreadSnapshot → HumanResponse → ThreadSnapshot)
    (threads : Threads) (thread_id : String)
    (human_response : HumanResponse) : Except HErr Unit × Threads :=
  let notFound : HErr :=
    { status_code := 400,
      detail := "Thread " ++ thread_id ++ " not found or has no saved state" }
  let completed : HErr :=
    { status_code := 400,
      detail := "Thread " ++ thread_id
        ++ " workflow already completed. Cannot resume." }
  match getThreadState threads thread_id with
  | none => (.error notFound, threads)
  | some st =>
    if st.values.isEmpty then
      (.error notFound, threads)
    else if st.next.isEmpty then
      (.error completed, threads)
    else
      (.ok (),
       threads.map (fun e =>
         if e.1 == thread_id then (e.1, advance st human_response) else e))

/-- The stub `write_email` tool (agent_tools.py): returns a canned
confirmation naming the recipient and subject. -/
def write_email (recipient subject _content : String) : String :=
  "Email sent to " ++ recipient ++ " with subject \'" ++ subject ++ "\'"

/-- A concrete tool dispatch for witnesses: `write_email` uses the stub
above, every other tool returns a fixed observation string. -/
def demoToolExec (name : String) (args : Args) : String :=
  if name == "write_email" then
    write_email (dictGet args "to") (dictGet args "subject")
      (dictGet args "content")
  else
    "tool output"

/-- Reading back the key just written returns the new value. -/
theorem Store.get_put (s : Store) (ns : NS) (k v : String) :
    (s.put ns k v).get ns k = some v := by
  simp [Store.get, Store.put, List.find?]

/-- A concrete email input shared by the witnesses below. -/
def demoEmail : Args :=
  [("author", "alice@example.com"), ("to", "john@example.com"),
   ("subject", "Question about API"),
   ("email_thread", "Could we schedule a call this week?")]

/-- A concrete state shared by the witnesses below. -/
def st0 : AgentState :=
  { email_input := demoEmail, classification_decision := "notify" }

/-- Claim C7: `get_memory` on an absent (namespace, "user_preferences") key
stores the default as a side effect and returns it, so a subsequent get
returns that same default; on a present key it returns the stored value
and leaves the store unchanged. -/
theorem get_memory_write_on_read (store : Store) (ns : NS) (d : String) :
    (store.get ns "user_preferences" = none →
      get_memory store ns d = (d, store.put ns "user_preferences" d) ∧
      (get_memory store ns d).2.get ns "user_preferences" = some d) ∧
    (∀ v, store.get ns "user_preferences" = some v →
      get_memory store ns d = (v, store)) := by
  constructor
  · intro h
    refine ⟨by simp [get_memory, h], ?_⟩
    simp [get_memory, h, Store.get_put]
  · intro v h
    simp [get_memory, h]

/-- Claim C7 witness: on the empty store the default "D" is seeded and read
back. -/
theorem get_memory_write_on_read_witness :
    get_memory (Store.mk []) triageNS "D"
      = ("D", (Store.mk []).put triageNS "user_preferences" "D") ∧
    (get_memory (Store.mk []) triageNS "D").2.get triageNS "user_preferences"
      = some "D" :=
  (get_memory_write_on_read (Store.mk []) triageNS "D").1 (by decide)

/-- The assistant message of the C1 counterexample: its first tool call
is "Done" but a second tool call is still pending. -/
def doneFirstMsg : Message :=
  { role := "assistant", content := "",
    tool_calls :=
      [{ name := "Done", args := [], id := "1" },
       { name := "write_email", args := [], id := "2" }] }

/-- Claim C1 counterexample: with tool calls [Done, write_email] both
`should_continue` variants return `__end__` although another tool call
besides "Done" is pending, so termination is not "exactly when a Done
tool call is emitted with no other pending tool calls". -/
theorem should_continue_first_call_only_cex :
    Hitl.should_continue doneFirstMsg = "__end__" ∧
    Agent.should_continue doneFirstMsg = "__end__" ∧
    ¬ (∀ tc ∈ doneFirstMsg.tool_calls, tc.name = "Done") := by
  refine ⟨rfl, rfl, ?_⟩
  intro h
  have := h { name := "write_email", args := [], id := "2" } (by simp [doneFirstMsg])
  simp at this

/-- Claim C1 amended: for an assistant message carrying tool calls, the HITL
`should_continue` ends exactly when the *first* tool call is "Done"
(later tool calls are never inspected), and the non-HITL
`should_continue` ends exactly when *any* tool call is "Done"; in all
other cases they route to the interrupt handler / tool handler. -/
theorem should_continue_done_routing (m : Message) (tc : ToolCall)
    (rest : List ToolCall) (h : m.tool_calls = tc :: rest) :
    (Hitl.should_continue m = "__end__" ↔ tc.name = "Done") ∧
    (Hitl.should_continue m = "interrupt_handler" ↔ tc.name ≠ "Done") ∧
    (Agent.should_continue m = "__end__" ↔ ∃ c ∈ m.tool_calls, c.name = "Done") ∧
    (Agent.should_continue m = "tool_handler" ↔ ∀ c ∈ m.tool_calls, c.name ≠ "Done") := by
  have hh : Hitl.should_continue m
      = (if tc.name == "Done" then "__end__" else "interrupt_handler") := by
    simp only [Hitl.should_continue, h]
  have ha : Agent.should_continue m
      = (if m.tool_calls.any (fun c => c.name == "Done")
         then "__end__" else "tool_handler") := by
    simp only [Agent.should_continue, h, List.isEmpty_cons, Bool.false_eq_true,
      if_false]
  refine ⟨?_, ?_, ?_, ?_⟩
  · rw [hh]; by_cases hd : tc.name = "Done" <;> simp [hd]
  · rw [hh]; by_cases hd : tc.name = "Done" <;> simp [hd]
  · rw [ha]
    by_cases hy : m.tool_calls.any (fun c => c.name == "Done") = true
    · simp only [hy, if_true]
      simpa [List.any_eq_true] using hy
    · simp only [Bool.not_eq_true] at hy
      simp only [hy, Bool.false_eq_true, if_false]
      constructor
      · intro hcontra; exact absurd hcontra (by simp)
      · intro hex
        exfalso
        rcases hex with ⟨c, hc, hcd⟩
        have : m.tool_calls.any (fun c => c.name == "Done") = true :=
          List.any_eq_true.mpr ⟨c, hc, by simp [hcd]⟩
        simp [this] at hy
  · rw [ha]
    by_cases hy : m.tool_calls.any (fun c => c.name == "Done") = true
    · simp only [hy, if_true]
      constructor
      · intro hcontra; exact absurd hcontra (by simp)
      · intro hall
        exfalso
        rcases List.any_eq_true.mp hy with ⟨c, hc, hcd⟩
        exact hall c hc (by simpa using hcd)
    · simp only [Bool.not_eq_true] at hy
      simp only [hy, Bool.false_eq_true, if_false, true_iff]
      intro c hc hcd
      have : m.tool_calls.any (fun cc => cc.name == "Done") = true :=
        List.any_eq_true.mpr ⟨c, hc, by simp [hcd]⟩
      simp [this] at hy

/-- Claim C1 witness: the characterization applied to the concrete message
whose first tool call is "Done". -/
theorem should_continue_done_routing_witness :
    Hitl.should_continue doneFirstMsg = "__end__" :=
  ((should_continue_done_routing doneFirstMsg
    { name := "Done", args := [], id := "1" }
    [{ name := "write_email", args := [], id := "2" }] rfl).1).mpr rfl

/-- Claim C10: the notify review request allows exactly ignore and respond
(accept and edit disabled); on resume, a "response" verdict routes to
the response agent and an "ignore" verdict ends the run, each with one
triage-preferences update, while any other verdict type is a fatal
error (no routing, no memory update). -/
theorem notify_review_capabilities (state : AgentState) (r : HumanResponse) :
    (triage_notify_config.allow_accept = false ∧
     triage_notify_config.allow_edit = false ∧
     triage_notify_config.allow_ignore = true ∧
     triage_notify_config.allow_respond = true ∧
     get_allowed_actions triage_notify_config = ["ignore", "respond"]) ∧
    (r.rtype = "response" →
      ∃ u, triage_interrupt_handler state r
        = .ok ("response_agent", u, [.memUpdate triageNS])) ∧
    (r.rtype = "ignore" →
      ∃ u, triage_interrupt_handler state r
        = .ok ("__end__", u, [.memUpdate triageNS])) ∧
    (r.rtype ≠ "response" → r.rtype ≠ "ignore" →
      triage_interrupt_handler state r
        = .error ("Invalid response type: " ++ r.rtype)) := by
  refine ⟨⟨rfl, rfl, rfl, rfl, rfl⟩, ?_, ?_, ?_⟩
  · intro hr
    exact ⟨_, by simp [triage_interrupt_handler, hr]; rfl⟩
  · intro hr
    exact ⟨_, by simp [triage_interrupt_handler, hr]; rfl⟩
  · intro hr1 hr2
    simp [triage_interrupt_handler, hr1, hr2]

/-- Claim C10 witness: the ignore verdict on the concrete notify state. -/
theorem notify_review_capabilities_witness :
    ∃ u, triage_interrupt_handler st0 { rtype := "ignore" }
      = .ok ("__end__", u, [.memUpdate triageNS]) :=
  (notify_review_capabilities st0 { rtype := "ignore" }).2.2.1 rfl

/-- Claim C9: resuming a thread that does not exist, has no saved state, or
whose workflow has already completed (no pending node) yields a 400
client error and leaves the thread map untouched. -/
theorem resume_guard_errors
    (advance : ThreadSnapshot → HumanResponse → ThreadSnapshot)
    (threads : Threads) (tid : String) (r : HumanResponse) :
    (getThreadState threads tid = none →
      ∃ e, process_email_hitl_resume advance threads tid r
        = (.error e, threads) ∧ e.status_code = 400) ∧
    (∀ st, getThreadState threads tid = some st →
      st.values.isEmpty = true ∨ st.next.isEmpty = true →
      ∃ e, process_email_hitl_resume advance threads tid r
        = (.error e, threads) ∧ e.status_code = 400) := by
  constructor
  · intro h
    exact ⟨_, by simp [process_email_hitl_resume, h]; rfl, rfl⟩
  · intro st hst hbad
    rcases hbad with hv | hn
    · exact ⟨_, by simp [process_email_hitl_resume, hst, hv]; rfl, rfl⟩
    · by_cases hv : st.values.isEmpty = true
      · exact ⟨_, by simp [process_email_hitl_resume, hst, hv]; rfl, rfl⟩
      · simp only [Bool.not_eq_true] at hv
        exact ⟨_, by simp [process_email_hitl_resume, hst, hv, hn]; rfl, rfl⟩

/-- Claim C9 witness: resuming an unknown thread id on an empty thread map. -/
theorem resume_guard_errors_witness :
    ∃ e, process_email_hitl_resume (fun st _ => st) [] "t1" { rtype := "ignore" }
      = (.error e, []) ∧ e.status_code = 400 :=
  (resume_guard_errors (fun st _ => st) [] "t1" { rtype := "ignore" }).1 rfl

/-- Claim C5: the edit correction path produces a new copy of the assistant
message in which exactly the tool call with the matching id is replaced
(the new list is the old one with that id filtered out and the edited
call appended), every other tool call and every other field of the
message are preserved, and the original message value is left intact. -/
theorem edit_replaces_tool_call_by_id (m : Message) (nm : String)
    (ed : Args) (cid : String) :
    (editToolCalls m nm ed cid).role = m.role ∧
    (editToolCalls m nm ed cid).content = m.content ∧
    (editToolCalls m nm ed cid).tool_call_id = m.tool_call_id ∧
    (editToolCalls m nm ed cid).tool_calls.filter (fun c => c.id == cid)
      = [{ name := nm, args := ed, id := cid }] ∧
    (∀ c ∈ m.tool_calls, c.id ≠ cid → c ∈ (editToolCalls m nm ed cid).tool_calls) ∧
    (∀ c ∈ (editToolCalls m nm ed cid).tool_calls,
      c = { name := nm, args := ed, id := cid } ∨ (c ∈ m.tool_calls ∧ c.id ≠ cid)) ∧
    (editToolCalls m nm ed cid).tool_calls
      = m.tool_calls.filter (fun c => !(c.id == cid))
          ++ [{ name := nm, args := ed, id := cid }] := by
  refine ⟨rfl, rfl, rfl, ?_, ?_, ?_, rfl⟩
  · simp [editToolCalls, List.filter_append, List.filter_filter]
  · intro c hc hne
    simp only [editToolCalls, List.mem_append, List.mem_filter]
    exact Or.inl ⟨hc, by simp [hne]⟩
  · intro c hc
    simp only [editToolCalls, List.mem_append, List.mem_filter,
      List.mem_singleton] at hc
    rcases hc with ⟨hin, hid⟩ | hnew
    · exact Or.inr ⟨hin, by simpa using hid⟩
    · exact Or.inl hnew

/-- Claim C8 counterexample: an ignore-classified run on a fresh store: the
HITL triage router's get-or-default seeds the triage-preferences
namespace, i.e. a write to a preference namespace does occur during the
run. -/
theorem ignore_run_seeds_triage_prefs_cex :
    (Store.mk []).get triageNS "user_preferences" = none ∧
    Hitl.triage_router "DTI" "ignore" st0 (Store.mk [])
      = .ok ("__end__",
          { messages := none, classification_decision := some "ignore" },
          Store.mk [(triageNS, "user_preferences", "DTI")]) ∧
    (Store.mk [(triageNS, "user_preferences", "DTI")]).get triageNS
      "user_preferences" = some "DTI" := by
  refine ⟨by decide, by rfl, by decide⟩

/-- Claim C8 amended: an ignore-classified email ends the run at the triage
router (goto `__end__`, no seed message, so the response loop never
runs: no tool execution and no `update_memory` call).  The non-HITL
router touches no store at all; the HITL router leaves the store
unchanged whenever the triage-preferences profile already exists — its
only possible write is the get-or-default seeding of the
triage-preferences default on first use. -/
theorem ignore_run_terminal_no_tools (state : AgentState) (store : Store)
    (dflt v : String) :
    (Agent.triage_router "ignore" state
      = .ok ("__end__",
          { messages := none, classification_decision := some "ignore" })) ∧
    (store.get triageNS "user_preferences" = some v →
      Hitl.triage_router dflt "ignore" state store
        = .ok ("__end__",
            { messages := none, classification_decision := some "ignore" },
            store)) := by
  constructor
  · simp [Agent.triage_router]
  · intro h
    simp [Hitl.triage_router, get_memory, triageNS] at h ⊢
    simp [h]

/-- Claim C8 witness: a store already holding a triage profile is untouched by
an ignore run. -/
theorem ignore_run_terminal_no_tools_witness :
    Hitl.triage_router "DTI" "ignore" st0
      (Store.mk [(triageNS, "user_preferences", "P")])
      = .ok ("__end__",
          { messages := none, classification_decision := some "ignore" },
          Store.mk [(triageNS, "user_preferences", "P")]) :=
  (ignore_run_terminal_no_tools st0
    (Store.mk [(triageNS, "user_preferences", "P")]) "DTI" "P").2 (by decide)

/-- Claim C6: the triage interrupt handler re-asserts the original
classification in its state update; the tool-call interrupt handler's
update touches only the messages field; and a notify classification
followed by an ignore verdict ends the run with the classification
still "notify". -/
theorem classification_preserved (dflt : String) (state : AgentState)
    (store : Store) (toolExec : String → Args → String)
    (responses : List HumanResponse) (r : HumanResponse) :
    (∀ g u eff, triage_interrupt_handler state r = .ok (g, u, eff) →
      u.classification_decision = some state.classification_decision) ∧
    (∀ g u eff, interrupt_handler toolExec state responses = .ok (g, u, eff) →
      u.classification_decision = none) ∧
    (∀ g1 u1 store1,
      Hitl.triage_router dflt "notify" state store = .ok (g1, u1, store1) →
      g1 = "triage_interrupt_handler" ∧
      (applyUpdate state u1).classification_decision = "notify" ∧
      (∀ g2 u2 eff,
        triage_interrupt_handler (applyUpdate state u1) { rtype := "ignore" }
          = .ok (g2, u2, eff) →
        g2 = "__end__" ∧
        (applyUpdate (applyUpdate state u1) u2).classification_decision
          = "notify")) := by
  refine ⟨?_, ?_, ?_⟩
  · intro g u eff h
    simp only [triage_interrupt_handler] at h
    split_ifs at h with h1 h2 <;>
      simp only [Except.ok.injEq, Prod.mk.injEq] at h
    · rw [← h.2.1]
    · rw [← h.2.1]
  · intro g u eff h
    unfold interrupt_handler at h
    cases hl : state.messages.getLast? with
    | none => rw [hl] at h; cases h
    | some last =>
      rw [hl] at h
      dsimp only at h
      cases hres : interruptLoop toolExec last last.tool_calls responses
          [] "llm_call" [] with
      | error e => rw [hres] at h; cases h
      | ok out =>
        rw [hres] at h
        simp only [Except.map, Except.ok.injEq, Prod.mk.injEq] at h
        rw [← h.2.1]
  · intro g1 u1 store1 h
    simp only [Hitl.triage_router] at h
    simp only [Except.ok.injEq, Prod.mk.injEq, show (("notify" == "respond") = false) by rfl,
      show (("notify" == "ignore") = false) by rfl, show (("notify" == "notify") = true) by rfl,
      Bool.false_eq_true, if_false, if_true] at h
    obtain ⟨hg1, hu1, hs1⟩ := h
    subst hu1
    refine ⟨hg1.symm, by simp [applyUpdate], ?_⟩
    intro g2 u2 eff h2
    simp only [triage_interrupt_handler] at h2
    simp only [show (("ignore" == "response") = false) by rfl,
      show (("ignore" == "ignore") = true) by rfl, Bool.false_eq_true,
      if_false, if_true, Except.ok.injEq, Prod.mk.injEq] at h2
    obtain ⟨hg2, hu2, _⟩ := h2
    subst hu2
    exact ⟨hg2.symm, by simp [applyUpdate]⟩

/-- Claim C6 witness: the scenario at concrete inputs — notify classification,
then an ignore verdict; the classification is still "notify". -/
theorem classification_preserved_witness :
    (applyUpdate st0
      { messages := none, classification_decision := some "notify" }).classification_decision
      = "notify" :=
  ((classification_preserved "D" st0 (Store.mk []) demoToolExec []
      { rtype := "ignore" }).2.2 "triage_interrupt_handler"
    { messages := none, classification_decision := some "notify" }
    (Store.mk [(triageNS, "user_preferences", "D")]) (by rfl)).2.1

/-- The Question tool call of the C2 counterexample. -/
def questionCall : ToolCall :=
  { name := "Question", args := [("content", "What time works?")], id := "q1" }

/-- The assistant message proposing a single Question. -/
def qMsg : Message :=
  { role := "assistant", content := "", tool_calls := [questionCall] }

/-- A state whose last assistant message proposes a single Question. -/
def qState : AgentState :=
  { email_input := demoEmail, classification_decision := "respond",
    messages := [qMsg] }

/-- Claim C2 counterexample: an "accept" verdict on a Question tool call —
whose capability set disables accept — is not rejected: the handler
executes the Question tool with its original arguments and returns
normally instead of raising a fatal error. -/
theorem question_accept_executes_cex :
    interrupt_handler demoToolExec qState [{ rtype := "accept" }]
      = .ok ("llm_call",
          { messages := some [toolMsg "tool output" "q1"],
            classification_decision := none },
          [.toolExec "Question" [("content", "What time works?")]]) := by
  rfl

/-- Claim C2 amended: for a pending Question review, only an "edit" verdict —
a capability the Question kind disallows — is a fatal error ("Invalid
tool call") with no tool execution; an "accept" verdict, although the
emitted capability set disables accept, is processed like a normal
accept: the tool runs with its original arguments and no error is
raised. -/
theorem disallowed_capability_verdicts (toolExec : String → Args → String)
    (state : AgentState) (last : Message) (tc : ToolCall)
    (responses : List HumanResponse) (r : HumanResponse)
    (hlast : state.messages.getLast? = some last)
    (htc : last.tool_calls = [tc])
    (hq : tc.name = "Question") :
    (r.rtype = "edit" →
      interrupt_handler toolExec state (r :: responses)
        = .error ("Invalid tool call: " ++ tc.name)) ∧
    (r.rtype = "accept" →
      interrupt_handler toolExec state (r :: responses)
        = .ok ("llm_call",
            { messages := some [toolMsg (toolExec tc.name tc.args) tc.id],
              classification_decision := none },
            [.toolExec tc.name tc.args])) := by
  obtain ⟨nm, args, tcid⟩ := tc
  simp only at hq
  subst hq
  constructor
  · intro hr
    unfold interrupt_handler
    rw [hlast]
    dsimp only
    rw [htc]
    simp [interruptLoop, hitl_tools, hitl_tool_config, hr, Except.map]
  · intro hr
    unfold interrupt_handler
    rw [hlast]
    dsimp only
    rw [htc]
    simp [interruptLoop, hitl_tools, hitl_tool_config, hr, toolMsg, Except.map]

/-- Claim C2 witness: the amended claim at the concrete Question state, for
both the edit verdict (fatal) and the accept verdict (executed). -/
theorem disallowed_capability_verdicts_witness :
    interrupt_handler demoToolExec qState
      [{ rtype := "edit", edited_args := [("content", "new")] }]
      = .error "Invalid tool call: Question" :=
  (disallowed_capability_verdicts demoToolExec qState qMsg questionCall []
    { rtype := "edit", edited_args := [("content", "new")] }
    (by rfl) (by rfl) (by rfl)).1 rfl

/-- Claim C4: an "edit" verdict on a single write_email (resp.
schedule_meeting) tool call executes the tool with the edited
arguments — the appended tool-result message's content is the tool's
output on the edited arguments, correlated by the original id — after
appending the corrected copy of the assistant message, and issues
exactly one preference update, targeting the response-preferences
(resp. calendar-preferences) namespace. -/
theorem edit_verdict_executes_edited_args (toolExec : String → Args → String)
    (state : AgentState) (last : Message) (tc : ToolCall)
    (responses : List HumanResponse) (edited : Args)
    (hlast : state.messages.getLast? = some last)
    (htc : last.tool_calls = [tc]) :
    (tc.name = "write_email" →
      interrupt_handler toolExec state
          ({ rtype := "edit", edited_args := edited } :: responses)
        = .ok ("llm_call",
            { messages := some [editToolCalls last tc.name edited tc.id,
                toolMsg (toolExec tc.name edited) tc.id],
              classification_decision := none },
            [.toolExec tc.name edited, .memUpdate responseNS])) ∧
    (tc.name = "schedule_meeting" →
      interrupt_handler toolExec state
          ({ rtype := "edit", edited_args := edited } :: responses)
        = .ok ("llm_call",
            { messages := some [editToolCalls last tc.name edited tc.id,
                toolMsg (toolExec tc.name edited) tc.id],
              classification_decision := none },
            [.toolExec tc.name edited, .memUpdate calNS])) := by
  obtain ⟨nm, args, tcid⟩ := tc
  simp only
  constructor
  · intro hq
    subst hq
    unfold interrupt_handler
    rw [hlast]
    dsimp only
    rw [htc]
    simp [interruptLoop, hitl_tools, hitl_tool_config, Except.map]
  · intro hq
    subst hq
    unfold interrupt_handler
    rw [hlast]
    dsimp only
    rw [htc]
    simp [interruptLoop, hitl_tools, hitl_tool_config, Except.map]

/-- The original write_email draft of the C4 witness. -/
def draftCall : ToolCall :=
  { name := "write_email",
    args := [("to", "john@example.com"), ("subject", "Re: API"),
             ("content", "draft body")],
    id := "w1" }

/-- The edited arguments of the C4 witness. -/
def editedArgsW : Args :=
  [("to", "alice@example.com"), ("subject", "Re: API v2"),
   ("content", "edited body")]

/-- The assistant message proposing the write_email draft. -/
def draftMsg : Message :=
  { role := "assistant", content := "", tool_calls := [draftCall] }

/-- A state whose last assistant message proposes the write_email
draft. -/
def draftState : AgentState :=
  { email_input := demoEmail, classification_decision := "respond",
    messages := [draftMsg] }

/-- Claim C4 witness: the edited write_email runs on the edited arguments
(the canned confirmation names the edited recipient and subject, not
the original ones) with exactly one response-preferences update. -/
theorem edit_verdict_executes_edited_args_witness :
    interrupt_handler demoToolExec draftState
        [{ rtype := "edit", edited_args := editedArgsW }]
      = .ok ("llm_call",
          { messages := some [editToolCalls draftMsg "write_email" editedArgsW "w1",
              toolMsg (demoToolExec "write_email" editedArgsW) "w1"],
            classification_decision := none },
          [.toolExec "write_email" editedArgsW, .memUpdate responseNS]) :=
  (edit_verdict_executes_edited_args demoToolExec draftState draftMsg
    draftCall [] editedArgsW (by rfl) (by rfl)).1 rfl

/-- Once a verdict has set the goto target to `__end__`, no later
branch of the tool-call loop resets it: the handler's final goto is
`__end__`. -/
theorem interruptLoop_end_persists (toolExec : String → Args → String)
    (last : Message) :
    ∀ (tcs : List ToolCall) (resps : List HumanResponse) (acc : List Message)
      (eff : List Effect) (out : List Message × String × List Effect),
      interruptLoop toolExec last tcs resps acc "__end__" eff = .ok out →
      out.2.1 = "__end__" := by
  intro tcs
  induction tcs with
  | nil =>
    intro resps acc eff out h
    unfold interruptLoop at h
    cases h
    rfl
  | cons tc rest ih =>
    intro resps acc eff out h
    unfold interruptLoop at h
    repeat' split at h
    all_goals
      first
        | (exact ih _ _ _ _ h)
        | simp at h

/-- The assistant turn of the C3 counterexample: a reviewable
write_email draft followed by an auto-execute calendar check. -/
def twoCallMsg : Message :=
  { role := "assistant", content := "",
    tool_calls :=
      [{ name := "write_email",
         args := [("to", "bob@example.com"), ("subject", "hi"),
                  ("content", "x")],
         id := "w1" },
       { name := "check_calendar_availability", args := [], id := "c1" }] }

/-- A state whose last assistant message is the two-call turn. -/
def twoCallState : AgentState :=
  { email_input := demoEmail, classification_decision := "respond",
    messages := [twoCallMsg] }

/-- Claim C3 counterexample: after the ignore verdict on the write_email
draft, the loop still processes the next tool call of the same
assistant turn — the calendar tool is auto-executed (its tool-result
message and execution effect appear after the refusal), so it is false
that no subsequent tool call is reviewed or executed after the ignore
verdict. -/
theorem ignore_verdict_continues_loop_cex :
    interrupt_handler demoToolExec twoCallState [{ rtype := "ignore" }]
      = .ok ("__end__",
          { messages := some
              [toolMsg "User ignored this email draft. Ignore this email and end the workflow." "w1",
               toolMsg "tool output" "c1"],
            classification_decision := none },
          [.memUpdate triageNS,
           .toolExec "check_calendar_availability" []]) := by
  rfl

/-- Claim C3 amended: an ignore verdict on a reviewable tool call does not
execute that tool, appends exactly the synthetic refusal message with
the matching tool_call_id, issues exactly one preference update (to the
triage-preferences namespace) and sets the goto target to `__end__`, so
the run terminates once the handler returns — but the remaining tool
calls of the same assistant turn are still processed first, and
whatever their verdicts, the final goto stays `__end__`. -/
theorem ignore_verdict_effects (toolExec : String → Args → String)
    (last : Message) (tc : ToolCall) (rest : List ToolCall)
    (responses : List HumanResponse)
    (hn : tc.name = "write_email" ∨ tc.name = "schedule_meeting"
      ∨ tc.name = "Question") :
    (∃ note : String,
      interruptLoop toolExec last (tc :: rest)
          ({ rtype := "ignore" } :: responses) [] "llm_call" []
        = interruptLoop toolExec last rest responses
            [toolMsg note tc.id] "__end__" [.memUpdate triageNS]) ∧
    (∀ resps acc eff out,
      interruptLoop toolExec last rest resps acc "__end__" eff = .ok out →
      out.2.1 = "__end__") := by
  refine ⟨?_, fun resps acc eff out h =>
    interruptLoop_end_persists toolExec last rest resps acc eff out h⟩
  obtain ⟨nm, args, tcid⟩ := tc
  simp only at hn
  rcases hn with hq | hq | hq <;> subst hq <;>
    exact ⟨_, by simp [interruptLoop, hitl_tools, hitl_tool_config]; rfl⟩

/-- Claim C3 witness: the amended claim at the concrete two-call turn. -/
theorem ignore_verdict_effects_witness :
    ∃ note : String,
      interruptLoop demoToolExec twoCallMsg twoCallMsg.tool_calls
          [{ rtype := "ignore" }] [] "llm_call" []
        = interruptLoop demoToolExec twoCallMsg
            [{ name := "check_calendar_availability", args := [], id := "c1" }]
            [] [toolMsg note "w1"] "__end__" [.memUpdate triageNS] :=
  (ignore_verdict_effects demoToolExec twoCallMsg
    { name := "write_email",
      args := [("to", "bob@example.com"), ("subject", "hi"), ("content", "x")],
      id := "w1" }
    [{ name := "check_calendar_availability", args := [], id := "c1" }]
    [] (Or.inl rfl)).1
